import Mathlib

/-
Shallow embedding of the tslint language-service plugin
(source: src/out/src/index.js) together with theorems settling the
behavioural claims about it.  JavaScript objects become Lean structures,
the two module-level mutable maps (the code-fix registry and the
configuration cache) become explicit state threaded through the
intercepted operations, and the external collaborators (the tslint
configuration API, the linter run, path normalisation, minimatch glob
matching, the source file line-start table) become function parameters.
Thrown JavaScript exceptions become Except values.
-/

set_option maxRecDepth 4000

deriving instance DecidableEq for Except

namespace Tslint

/-! ## Association lists with JavaScript Map semantics

The plugin keeps its per-file fix registry in nested JavaScript Maps.
A JavaScript Map preserves insertion order, `set` on an existing key
replaces the value in place (keeping the original position), `delete`
removes the entry, and keys are unique.  We embed a Map as a list of
key-value pairs with exactly these operations; `mapDelete` removes every
entry with the key, which agrees with Map.delete on the unique-key lists
the plugin actually builds. -/

abbrev AList (α β : Type) := List (α × β)

def mapGet [DecidableEq α] : AList α β → α → Option β
  | [], _ => none
  | (k, v) :: rest, key => if k = key then some v else mapGet rest key

def mapSet [DecidableEq α] : AList α β → α → β → AList α β
  | [], key, v => [(key, v)]
  | (k, w) :: rest, key, v =>
    if k = key then (k, v) :: rest else (k, w) :: mapSet rest key v

def mapDelete [DecidableEq α] (m : AList α β) (key : α) : AList α β :=
  m.filter (fun kv => decide (kv.1 ≠ key))

def mapHas [DecidableEq α] (m : AList α β) (key : α) : Bool :=
  (mapGet m key).isSome

/-- Embeds JavaScript Map.values(): the values in insertion order. -/
def mapValues (m : AList α β) : List β :=
  m.map (·.2)

/-! ## Replacements and fixes -/

/-- One tslint Replacement: a text edit with a start offset, a length and
the replacement text. -/
structure Replacement where
  start : Nat
  length : Nat
  text : String
deriving DecidableEq

/-- The tslint Replacement end accessor: start + length.  (Named
endOffset because end is a Lean keyword.) -/
def Replacement.endOffset (r : Replacement) : Nat :=
  r.start + r.length

/-- The two historical shapes of a tslint Fix value: tslint 4 wraps the
replacement list in an object with a replacements property; tslint 5
uses a bare Replacement or an array of Replacements. -/
inductive Fix where
  | withReplacements (replacements : List Replacement)
  | single (r : Replacement)
  | list (rs : List Replacement)
deriving DecidableEq

/-- Embeds replacementsAreEmpty (src lines 104-114): a tslint-4 fix is
empty when its replacements list is empty, a tslint-5 array fix is
empty when the array is empty, and a bare Replacement is never empty. -/
def replacementsAreEmpty : Fix → Bool
  | .withReplacements rs => rs.length == 0
  | .list rs => rs.length == 0
  | .single _ => false

/-- Embeds getReplacements (src lines 185-202): the tslint-4 shape keeps
its replacements property, a tslint-5 bare Replacement becomes a
singleton list, a tslint-5 array is taken as is. -/
def getReplacements : Fix → List Replacement
  | .withReplacements rs => rs
  | .single r => [r]
  | .list rs => rs

/-- One tslint RuleFailure as far as the plugin observes it, with one
field per getter the source calls: getRuleName, getFailure,
getStartPosition().getPosition(), getEndPosition().getPosition(),
getRuleSeverity (absent in tslint before 5), getFix (absent or
undefined when the rule produced no fix), getFileName, and
getStartPosition().getLineAndCharacter().line. -/
structure Problem where
  ruleName : Option String
  failureText : String
  startPos : Nat
  endPos : Nat
  ruleSeverity : Option String
  fix : Option Fix
  fileName : String
  startLine : Nat
deriving DecidableEq

/-- The replacement list of a problem: getReplacements(problem.getFix()).
When the problem has no fix the source would raise a TypeError inside
getReplacements; that state is unreachable for recorded problems (the
registry only stores problems with a non-empty fix), and we return []
for it. -/
def problemReplacements (problem : Problem) : List Replacement :=
  match problem.fix with
  | some fix => getReplacements fix
  | none => []

/-- Embeds getReplacement (src lines 269-271):
getReplacements(failure.getFix())[at]. -/
def getReplacement (failure : Problem) (at_ : Nat) : Option Replacement :=
  (problemReplacements failure)[at_]?

/-- The sort key used by sortFailures: getReplacement(a, 0).start.  On a
problem with no replacements the source would raise a TypeError; we
return 0 for that unreachable case. -/
def firstReplacementStart (failure : Problem) : Nat :=
  match problemReplacements failure with
  | [] => 0
  | r :: _ => r.start

/-! ## The overlap-resolution algorithm (src lines 272-291) -/

/-- Stable insertion into a list sorted ascending by
firstReplacementStart. -/
def insertByReplacementStart (f : Problem) : List Problem → List Problem
  | [] => [f]
  | g :: rest =>
    if firstReplacementStart f < firstReplacementStart g then f :: g :: rest
    else g :: insertByReplacementStart f rest

/-- Embeds sortFailures (src lines 272-277): sort the failures ascending
by the start position of their first replacement.  The source uses the
JavaScript comparison sort with comparator
getReplacement(a,0).start - getReplacement(b,0).start, whose tie-break
order is unspecified; we use a stable insertion sort with the same
key. -/
def sortFailures : List Problem → List Problem
  | [] => []
  | f :: rest => insertByReplacementStart f (sortFailures rest)

/-- Embeds the local overlaps predicate (src lines 279-281):
a.end >= b.start. -/
def overlaps (a b : Replacement) : Bool :=
  decide (b.start ≤ a.endOffset)

/-- The guard overlaps(nonOverlapping[nonOverlapping.length - 1],
replacements[0]).  When either side is missing the source would raise a
TypeError; those states are unreachable (the loop index is positive and
recorded problems have a non-empty replacement list) and evaluate to
false here. -/
def overlapsLastWith (nonOverlapping replacements : List Replacement) : Bool :=
  match nonOverlapping.getLast?, replacements.head? with
  | some last, some r0 => overlaps last r0
  | _, _ => false

/-- The loop of getNonOverlappingReplacements (src lines 283-289), with
the i === 0 test carried as the isFirst flag. -/
def nonOverlappingLoop : List Problem → List Replacement → Bool → List Replacement
  | [], nonOverlapping, _ => nonOverlapping
  | failure :: rest, nonOverlapping, isFirst =>
    let replacements := problemReplacements failure
    if isFirst = true ∨ overlapsLastWith nonOverlapping replacements = false then
      nonOverlappingLoop rest (nonOverlapping ++ replacements) false
    else
      nonOverlappingLoop rest nonOverlapping false

/-- Embeds getNonOverlappingReplacements (src lines 278-291): sort the
recorded failures of the file and keep each failure's replacements only
when its first replacement does not touch or overlap the last
accumulated replacement. -/
def getNonOverlappingReplacements (documentFixes : AList (Nat × Nat) Problem) :
    List Replacement :=
  nonOverlappingLoop (sortFailures (mapValues documentFixes)) [] true

/-- Comparison definition written from the specification wording of the
overlap-resolution walk: walk the sorted sequence keeping an accumulated
replacement list; a failure whose first replacement starts at or before
the end offset of the last accumulated replacement is dropped whole,
otherwise all of its replacements are appended. -/
def specOverlapWalk : List Problem → List Replacement → List Replacement
  | [], acc => acc
  | failure :: rest, acc =>
    match acc.getLast? with
    | none => specOverlapWalk rest (acc ++ problemReplacements failure)
    | some last =>
      if firstReplacementStart failure ≤ last.endOffset then
        specOverlapWalk rest acc
      else
        specOverlapWalk rest (acc ++ problemReplacements failure)

/-- Comparison definition from the specification wording: sort the
failures ascending by first-replacement start, then run the
overlap-resolution walk on the sorted sequence. -/
def specOverlapResolution (failures : List Problem) : List Replacement :=
  specOverlapWalk (sortFailures failures) []

/-! ## Lemmas about sortFailures -/

lemma insertByReplacementStart_perm (f : Problem) (l : List Problem) :
    List.Perm (insertByReplacementStart f l) (f :: l) := by
  induction l with
  | nil => simp [insertByReplacementStart]
  | cons g rest ih =>
    by_cases h : firstReplacementStart f < firstReplacementStart g
    · simp [insertByReplacementStart, h]
    · simp only [insertByReplacementStart, if_neg h]
      exact (ih.cons g).trans (List.Perm.swap f g rest)

lemma sortFailures_perm (l : List Problem) :
    List.Perm (sortFailures l) l := by
  induction l with
  | nil => exact List.Perm.refl _
  | cons f rest ih =>
    exact (insertByReplacementStart_perm f (sortFailures rest)).trans (ih.cons f)

lemma insertByReplacementStart_pairwise (f : Problem) (l : List Problem)
    (h : l.Pairwise (fun a b => firstReplacementStart a ≤ firstReplacementStart b)) :
    (insertByReplacementStart f l).Pairwise
      (fun a b => firstReplacementStart a ≤ firstReplacementStart b) := by
  induction l with
  | nil => simp [insertByReplacementStart]
  | cons g rest ih =>
    rcases List.pairwise_cons.mp h with ⟨hg, hrest⟩
    by_cases hlt : firstReplacementStart f < firstReplacementStart g
    · simp only [insertByReplacementStart, if_pos hlt]
      refine List.pairwise_cons.mpr ⟨?_, h⟩
      intro x hx
      rcases List.mem_cons.mp hx with rfl | hx
      · exact le_of_lt hlt
      · exact (le_of_lt hlt).trans (hg x hx)
    · simp only [insertByReplacementStart, if_neg hlt]
      refine List.pairwise_cons.mpr ⟨?_, ih hrest⟩
      intro x hx
      rcases List.mem_cons.mp ((insertByReplacementStart_perm f rest).mem_iff.mp hx) with rfl | hx
      · exact le_of_not_lt hlt
      · exact hg x hx

lemma sortFailures_pairwise (l : List Problem) :
    (sortFailures l).Pairwise
      (fun a b => firstReplacementStart a ≤ firstReplacementStart b) := by
  induction l with
  | nil => simp [sortFailures]
  | cons f rest ih => exact insertByReplacementStart_pairwise f (sortFailures rest) ih

/-! ## The code walk agrees with the spec walk -/

lemma nonOverlappingLoop_eq_specOverlapWalk (failures : List Problem) :
    ∀ acc : List Replacement,
      (∀ f ∈ failures, problemReplacements f ≠ []) → acc ≠ [] →
      nonOverlappingLoop failures acc false = specOverlapWalk failures acc := by
  induction failures with
  | nil => intro acc _ _; rfl
  | cons f rest ih =>
    intro acc hne hacc
    have hf : problemReplacements f ≠ [] := hne f (List.mem_cons_self f rest)
    have hrest : ∀ g ∈ rest, problemReplacements g ≠ [] :=
      fun g hg => hne g (List.mem_cons_of_mem f hg)
    obtain ⟨last, hlast⟩ : ∃ last, acc.getLast? = some last := by
      cases hl : acc.getLast? with
      | none => exact absurd (List.getLast?_eq_none_iff.mp hl) hacc
      | some last => exact ⟨last, rfl⟩
    cases hrep : problemReplacements f with
    | nil => exact absurd hrep hf
    | cons r rs =>
      have hfirst : firstReplacementStart f = r.start := by
        simp [firstReplacementStart, hrep]
      have hov : overlapsLastWith acc (r :: rs) = overlaps last r := by
        simp [overlapsLastWith, hlast]
      by_cases hle : r.start ≤ last.endOffset
      · have hovt : overlapsLastWith acc (problemReplacements f) = true := by
          rw [hrep, hov]; simp [overlaps, hle]
        have hcode : nonOverlappingLoop (f :: rest) acc false =
            nonOverlappingLoop rest acc false := by
          simp only [nonOverlappingLoop, hovt]
          rw [if_neg]
          simp
        have hspec : specOverlapWalk (f :: rest) acc = specOverlapWalk rest acc := by
          simp only [specOverlapWalk, hlast]
          rw [if_pos (hfirst ▸ hle)]
        rw [hcode, hspec]
        exact ih acc hrest hacc
      · have hovt : overlapsLastWith acc (problemReplacements f) = false := by
          rw [hrep, hov]; simp [overlaps, hle]
        have hcode : nonOverlappingLoop (f :: rest) acc false =
            nonOverlappingLoop rest (acc ++ problemReplacements f) false := by
          simp only [nonOverlappingLoop, hovt]
          simp
        have hspec : specOverlapWalk (f :: rest) acc =
            specOverlapWalk rest (acc ++ problemReplacements f) := by
          simp only [specOverlapWalk, hlast]
          rw [if_neg (hfirst ▸ hle)]
        rw [hcode, hspec]
        exact ih (acc ++ problemReplacements f) hrest
          (List.append_ne_nil_of_left_ne_nil hacc _)

lemma getNonOverlappingReplacements_eq_spec (documentFixes : AList (Nat × Nat) Problem)
    (h : ∀ p ∈ mapValues documentFixes, problemReplacements p ≠ []) :
    getNonOverlappingReplacements documentFixes =
      specOverlapResolution (mapValues documentFixes) := by
  unfold getNonOverlappingReplacements specOverlapResolution
  have hs : ∀ f ∈ sortFailures (mapValues documentFixes), problemReplacements f ≠ [] :=
    fun f hf => h f ((sortFailures_perm _).mem_iff.mp hf)
  cases hsf : sortFailures (mapValues documentFixes) with
  | nil => rfl
  | cons f rest =>
    have hf : problemReplacements f ≠ [] := by
      apply hs; rw [hsf]; exact List.mem_cons_self f rest
    have hrest : ∀ g ∈ rest, problemReplacements g ≠ [] := by
      intro g hg; apply hs; rw [hsf]; exact List.mem_cons_of_mem f hg
    have hcode : nonOverlappingLoop (f :: rest) [] true =
        nonOverlappingLoop rest (problemReplacements f) false := by
      simp only [nonOverlappingLoop]
      simp
    have hspec : specOverlapWalk (f :: rest) [] =
        specOverlapWalk rest (problemReplacements f) := by
      simp only [specOverlapWalk, List.getLast?_nil]
      simp
    rw [hcode, hspec]
    exact nonOverlappingLoop_eq_specOverlapWalk rest (problemReplacements f) hrest hf

/-! ## Concrete instance for the overlap algorithm -/

/-- A replacement covering offsets s to e, with empty replacement
text. -/
def exReplacement (s e : Nat) : Replacement :=
  { start := s, length := e - s, text := "" }

/-- A recorded failure whose single replacement covers offsets s to
e. -/
def exProblem (s e : Nat) : Problem :=
  { ruleName := some "r", failureText := "m", startPos := s, endPos := e,
    ruleSeverity := none, fix := some (.list [exReplacement s e]),
    fileName := "f.ts", startLine := 0 }

/-- Three recorded failures with replacement spans [0,5], [3,8] and
[10,12], keyed by their spans in sorted order. -/
def exampleDocumentFixes : AList (Nat × Nat) Problem :=
  [((0, 5), exProblem 0 5), ((3, 8), exProblem 3 8), ((10, 12), exProblem 10 12)]

/-- C1: the fix-all overlap resolution first sorts the recorded failures
ascending by the start offset of their first replacement, then walks
them in order, dropping a failure whole exactly when its first
replacement starts at or before the end offset of the last accumulated
replacement, and appending all of its replacements otherwise; on the
spans [0,5], [3,8], [10,12] it keeps exactly the replacements of
failures 1 and 3. -/
theorem C1_overlap_resolution_algorithm :
    (∀ failures : List Problem,
        (sortFailures failures).Pairwise
          (fun a b => firstReplacementStart a ≤ firstReplacementStart b)) ∧
    (∀ failures : List Problem, List.Perm (sortFailures failures) failures) ∧
    (∀ documentFixes : AList (Nat × Nat) Problem,
        (∀ p ∈ mapValues documentFixes, problemReplacements p ≠ []) →
        getNonOverlappingReplacements documentFixes =
          specOverlapResolution (mapValues documentFixes)) ∧
    getNonOverlappingReplacements exampleDocumentFixes =
      [exReplacement 0 5, exReplacement 10 12] :=
  ⟨sortFailures_pairwise, sortFailures_perm,
   getNonOverlappingReplacements_eq_spec, by decide⟩

/-- Witness for C1: the hypotheses of the refinement part hold at the
three-failure example, where code and spec walks agree. -/
theorem C1_overlap_resolution_algorithm_witness :
    (∀ p ∈ mapValues exampleDocumentFixes, problemReplacements p ≠ []) ∧
    getNonOverlappingReplacements exampleDocumentFixes =
      specOverlapResolution (mapValues exampleDocumentFixes) :=
  ⟨by decide, C1_overlap_resolution_algorithm.2.2.1 exampleDocumentFixes (by decide)⟩

/-! ## Configuration -/

/-- The plugin configuration block handed to create via info.config.
The source reads exactly the keys below; a JavaScript configuration
object may additionally carry the key suppressWhileTypeErrorsPresent
(the spelling the specification lists), which the source never reads:
both spellings are kept as fields so that statements can talk about
either key.  Tri-state options that the source compares with === true
or === undefined are Option Bool (none embeds undefined); options the
source only tests for truthiness are Bool. -/
structure PluginConfig where
  alwaysShowRuleFailuresAsWarnings : Option Bool
  ignoreDefinitionFiles : Option Bool
  configFile : Option String
  disableNoUnusedVariableRule : Option Bool
  supressWhileTypeErrorsPresent : Bool
  suppressWhileTypeErrorsPresent : Bool
  mockTypeScriptVersion : Bool
deriving DecidableEq

/-- The rules container of a resolved tslint configuration, keeping only
the rule names: tslint 5 stores rules in a Map (which supports delete),
earlier versions in a plain object (on which the source performs no
deletion). -/
inductive RulesContainer where
  | mapContainer (names : List String)
  | objContainer (names : List String)
deriving DecidableEq

/-- Embeds configuration.rules.delete(name) guarded by
instanceof Map (src lines 159-164): the name is removed from a Map
container and a plain-object container is left untouched. -/
def RulesContainer.deleteRule : RulesContainer → String → RulesContainer
  | .mapContainer names, name => .mapContainer (names.filter (fun n => n != name))
  | .objContainer names, _ => .objContainer names

/-- Whether a (possibly absent) rules container mentions a rule name. -/
def rulesContainRule : Option RulesContainer → String → Bool
  | some (.mapContainer names), name => names.contains name
  | some (.objContainer names), name => names.contains name
  | none, _ => false

/-- The linterOptions block of a resolved configuration. -/
structure LinterOptions where
  exclude : Option (List String)
deriving DecidableEq

/-- A resolved tslint configuration, with the parts the plugin
reads. -/
structure TsConfiguration where
  rules : Option RulesContainer
  jsRules : Option RulesContainer
  linterOptions : Option LinterOptions
deriving DecidableEq

/-- The value of tslint.Configuration.findConfiguration: a results
configuration, an optional error attribute (tslint 4.0.1 keeps load
errors here) and the path the configuration was loaded from. -/
structure ConfigurationResult where
  error : Option String
  results : TsConfiguration
  path : Option String
deriving DecidableEq

/-- The external tslint configuration API: findConfigurationPath
returns the configuration path or undefined, and findConfiguration
either returns a ConfigurationResult or throws (tslint 4.0.2 and
^3.0.0). -/
structure TslintApi where
  findConfigurationPath : Option String → String → Option String
  findConfiguration : Option String → String → Except String ConfigurationResult

/-- The module-level configCache record (src lines 10-15). -/
structure ConfigCache where
  filePath : Option String
  configuration : Option TsConfiguration
  isDefaultConfig : Bool
  configFilePath : Option String
deriving DecidableEq

/-- The initial configCache value: no cached entry. -/
def initialConfigCache : ConfigCache :=
  { filePath := none, configuration := none,
    isDefaultConfig := false, configFilePath := none }

/-- Embeds the no-unused-variable normalization (src lines 153-165):
when disableNoUnusedVariableRule is true or undefined, the rule is
deleted from the rules and jsRules containers when each is present and
is a Map; otherwise the configuration is returned untouched. -/
def removeNoUnusedVariableRule (config : PluginConfig)
    (configuration : TsConfiguration) : TsConfiguration :=
  if config.disableNoUnusedVariableRule = some true ∨
      config.disableNoUnusedVariableRule = none then
    { configuration with
      rules := configuration.rules.map (fun c => c.deleteRule "no-unused-variable"),
      jsRules := configuration.jsRules.map (fun c => c.deleteRule "no-unused-variable") }
  else
    configuration

/-- The cache-miss path of getConfiguration (src lines 142-173): query
findConfigurationPath for the default-config flag, run
findConfiguration (propagating a thrown error), throw the error
attribute when present, normalize the rules, and build the replacement
cache record from scratch. -/
def getConfigurationMiss (api : TslintApi) (config : PluginConfig)
    (filePath : String) : Except String (TsConfiguration × ConfigCache) :=
  let isDefaultConfig := (api.findConfigurationPath config.configFile filePath).isNone
  match api.findConfiguration config.configFile filePath with
  | .error e => .error e
  | .ok configurationResult =>
    match configurationResult.error with
    | some err => .error err
    | none =>
      let configuration := removeNoUnusedVariableRule config configurationResult.results
      .ok (configuration,
        { filePath := some filePath,
          isDefaultConfig := isDefaultConfig,
          configuration := some configuration,
          configFilePath := configurationResult.path })

/-- Embeds getConfiguration (src lines 138-174): return the cached
configuration (leaving the cache untouched) when a configuration is
cached and the cached file path equals the queried one; otherwise
resolve afresh and replace the whole cache slot.  The function returns
the configuration together with the new cache value; thrown errors are
Except.error. -/
def getConfiguration (api : TslintApi) (config : PluginConfig) (filePath : String)
    (configCache : ConfigCache) : Except String (TsConfiguration × ConfigCache) :=
  match configCache.configuration with
  | some cached =>
    if configCache.filePath = some filePath then .ok (cached, configCache)
    else getConfigurationMiss api config filePath
  | none => getConfigurationMiss api config filePath

/-- C6: the single-slot configuration cache hits exactly on an equal
file path with a cached configuration present (returning the cached
configuration and leaving the slot untouched); any other lookup ignores
the old slot entirely (it behaves as if the cache were empty) and, on
success, the slot is wholly replaced with an entry for the queried
path holding the returned configuration. -/
theorem C6_config_cache_single_slot :
    (∀ (api : TslintApi) (config : PluginConfig) (filePath : String)
        (s : ConfigCache) (c : TsConfiguration),
        s.configuration = some c → s.filePath = some filePath →
        getConfiguration api config filePath s = .ok (c, s)) ∧
    (∀ (api : TslintApi) (config : PluginConfig) (filePath : String)
        (s : ConfigCache),
        (s.configuration = none ∨ s.filePath ≠ some filePath) →
        getConfiguration api config filePath s =
          getConfiguration api config filePath initialConfigCache) ∧
    (∀ (api : TslintApi) (config : PluginConfig) (filePath : String)
        (s : ConfigCache) (c : TsConfiguration) (s' : ConfigCache),
        (s.configuration = none ∨ s.filePath ≠ some filePath) →
        getConfiguration api config filePath s = .ok (c, s') →
        s'.filePath = some filePath ∧ s'.configuration = some c) := by
  refine ⟨?_, ?_, ?_⟩
  · intro api config filePath s c hc hp
    simp [getConfiguration, hc, hp]
  · intro api config filePath s hmiss
    rcases hmiss with hc | hp
    · simp [getConfiguration, hc, initialConfigCache]
    · cases hc : s.configuration with
      | none => simp [getConfiguration, hc, initialConfigCache]
      | some cached => simp [getConfiguration, hc, hp, initialConfigCache]
  · intro api config filePath s c s' hmiss hok
    have hfresh : getConfigurationMiss api config filePath = .ok (c, s') := by
      rcases hmiss with hc | hp
      · simpa [getConfiguration, hc] using hok
      · cases hc : s.configuration with
        | none => simpa [getConfiguration, hc] using hok
        | some cached => simpa [getConfiguration, hc, hp] using hok
    rw [getConfigurationMiss] at hfresh
    split at hfresh
    · exact absurd hfresh (by simp)
    · split at hfresh
      · exact absurd hfresh (by simp)
      · simp only [Except.ok.injEq, Prod.mk.injEq] at hfresh
        obtain ⟨hcfg, hcache⟩ := hfresh
        rw [← hcache]
        exact ⟨rfl, by rw [hcfg]⟩

/-- A concrete resolved configuration with Map-backed rule sets. -/
def exConfiguration : TsConfiguration :=
  { rules := some (.mapContainer ["semicolon"]),
    jsRules := none, linterOptions := none }

/-- A concrete plugin configuration block with every option at its
default. -/
def exPluginConfig : PluginConfig :=
  { alwaysShowRuleFailuresAsWarnings := none, ignoreDefinitionFiles := none,
    configFile := none, disableNoUnusedVariableRule := none,
    supressWhileTypeErrorsPresent := false,
    suppressWhileTypeErrorsPresent := false,
    mockTypeScriptVersion := false }

/-- A concrete tslint configuration API that always finds the same
configuration file. -/
def exApi : TslintApi :=
  { findConfigurationPath := fun _ _ => some "tslint.json",
    findConfiguration := fun _ _ =>
      .ok { error := none, results := exConfiguration, path := some "tslint.json" } }

/-- A concrete cache slot holding a configuration for a.ts. -/
def exCache : ConfigCache :=
  { filePath := some "a.ts", configuration := some exConfiguration,
    isDefaultConfig := false, configFilePath := some "tslint.json" }

/-- Witness for C6 at a concrete cache state: a hit on the cached path
returns the cached configuration with the slot untouched, and a lookup
for a different path ignores the slot. -/
theorem C6_config_cache_single_slot_witness :
    ((exCache.configuration = some exConfiguration) ∧
     (exCache.filePath = some "a.ts") ∧
     getConfiguration exApi exPluginConfig "a.ts" exCache = .ok (exConfiguration, exCache)) ∧
    ((exCache.configuration = none ∨ exCache.filePath ≠ some "b.ts") ∧
     getConfiguration exApi exPluginConfig "b.ts" exCache =
       getConfiguration exApi exPluginConfig "b.ts" initialConfigCache) :=
  ⟨⟨rfl, rfl,
    C6_config_cache_single_slot.1 exApi exPluginConfig "a.ts" exCache exConfiguration rfl rfl⟩,
   ⟨Or.inr (by decide),
    C6_config_cache_single_slot.2.1 exApi exPluginConfig "b.ts" exCache (Or.inr (by decide))⟩⟩

/-- A tslint API answering with a pre-tslint-5 configuration whose rule
containers are plain objects that mention no-unused-variable. -/
def c7Api : TslintApi :=
  { findConfigurationPath := fun _ _ => some "tslint.json",
    findConfiguration := fun _ _ =>
      .ok { error := none,
            results := { rules := some (.objContainer ["no-unused-variable"]),
                         jsRules := some (.objContainer ["no-unused-variable"]),
                         linterOptions := none },
            path := some "tslint.json" } }

/-- Counterexample for C7 as stated: with the default (not opted out)
disableNoUnusedVariableRule, a resolved configuration whose rules are
stored in a plain object (pre-tslint-5 shape) still contains
no-unused-variable after getConfiguration, so the removal is not
unconditional. -/
theorem C7_counterexample_obj_rules_not_removed :
    exPluginConfig.disableNoUnusedVariableRule ≠ some false ∧
    (getConfiguration c7Api exPluginConfig "f.ts" initialConfigCache).toOption.map
      (fun pr => rulesContainRule pr.1.rules "no-unused-variable") = some true := by
  decide

/-- C7 amended: after resolution the configuration is normalized by
removeNoUnusedVariableRule; unless the caller opted out with
disableNoUnusedVariableRule = false, the no-unused-variable rule is
removed from a rules or jsRules container exactly when that container
is a Map (tslint 5); a plain-object container (earlier tslint) is left
unchanged, and opting out leaves the configuration untouched. -/
theorem C7_rule_removal_amended :
    (∀ (api : TslintApi) (config : PluginConfig) (filePath : String)
        (r : ConfigurationResult),
        api.findConfiguration config.configFile filePath = .ok r →
        r.error = none →
        getConfiguration api config filePath initialConfigCache =
          .ok (removeNoUnusedVariableRule config r.results,
            { filePath := some filePath,
              isDefaultConfig := (api.findConfigurationPath config.configFile filePath).isNone,
              configuration := some (removeNoUnusedVariableRule config r.results),
              configFilePath := r.path })) ∧
    (∀ (config : PluginConfig) (cfg : TsConfiguration) (names : List String),
        (config.disableNoUnusedVariableRule = some true ∨
         config.disableNoUnusedVariableRule = none) →
        cfg.rules = some (.mapContainer names) →
        (removeNoUnusedVariableRule config cfg).rules =
          some (.mapContainer (names.filter (fun n => n != "no-unused-variable")))) ∧
    (∀ (config : PluginConfig) (cfg : TsConfiguration) (names : List String),
        (config.disableNoUnusedVariableRule = some true ∨
         config.disableNoUnusedVariableRule = none) →
        cfg.jsRules = some (.mapContainer names) →
        (removeNoUnusedVariableRule config cfg).jsRules =
          some (.mapContainer (names.filter (fun n => n != "no-unused-variable")))) ∧
    (∀ (config : PluginConfig) (cfg : TsConfiguration) (names : List String),
        cfg.rules = some (.objContainer names) →
        (removeNoUnusedVariableRule config cfg).rules =
          some (.objContainer names)) ∧
    (∀ (config : PluginConfig) (cfg : TsConfiguration),
        config.disableNoUnusedVariableRule = some false →
        removeNoUnusedVariableRule config cfg = cfg) := by
  refine ⟨?_, ?_, ?_, ?_, ?_⟩
  · intro api config filePath r hfind herr
    simp [getConfiguration, initialConfigCache, getConfigurationMiss, hfind, herr]
  · intro config cfg names hopt hrules
    simp [removeNoUnusedVariableRule, hopt, hrules, RulesContainer.deleteRule]
  · intro config cfg names hopt hrules
    simp [removeNoUnusedVariableRule, hopt, hrules, RulesContainer.deleteRule]
  · intro config cfg names hrules
    by_cases hopt : config.disableNoUnusedVariableRule = some true ∨
        config.disableNoUnusedVariableRule = none
    · simp [removeNoUnusedVariableRule, hopt, hrules, RulesContainer.deleteRule]
    · simp [removeNoUnusedVariableRule, hopt, hrules]
  · intro config cfg h
    simp [removeNoUnusedVariableRule, h]

/-- A resolved configuration with a Map-backed rules container holding
both no-unused-variable and semicolon. -/
def exMapConfig : TsConfiguration :=
  { rules := some (.mapContainer ["no-unused-variable", "semicolon"]),
    jsRules := none, linterOptions := none }

/-- Witness for C7 amended: at the default option value and a concrete
Map-backed container, the rule is removed and only semicolon
remains. -/
theorem C7_rule_removal_amended_witness :
    (exPluginConfig.disableNoUnusedVariableRule = some true ∨
     exPluginConfig.disableNoUnusedVariableRule = none) ∧
    exMapConfig.rules = some (.mapContainer ["no-unused-variable", "semicolon"]) ∧
    (removeNoUnusedVariableRule exPluginConfig exMapConfig).rules =
      some (.mapContainer
        (["no-unused-variable", "semicolon"].filter (fun n => n != "no-unused-variable"))) :=
  ⟨Or.inr rfl, rfl,
   C7_rule_removal_amended.2.1 exPluginConfig exMapConfig
     ["no-unused-variable", "semicolon"] (Or.inr rfl) rfl⟩

/-! ## The intercepted diagnostics operation -/

/-- The numeric diagnostic code used for every tslint diagnostic (src
line 5). -/
def TSLINT_ERROR_CODE : Nat := 100000

/-- The host diagnostic categories the plugin uses. -/
inductive DiagnosticCategory where
  | Warning
  | Error
deriving DecidableEq

/-- A host-shaped diagnostic as makeDiagnostic builds it (src lines
78-87); the file object is represented by its file name.  Host-produced
prior diagnostics use the same shape with arbitrary field values. -/
structure Diagnostic where
  file : String
  start : Nat
  length : Nat
  messageText : String
  category : DiagnosticCategory
  source : String
  code : Nat
deriving DecidableEq

/-- Identity of the value stored in the global console.warn slot: either
some host-installed sink or the plugin's captureWarnings function (src
lines 175-178). -/
inductive WarnSink where
  | hostSink (id : Nat)
  | captureWarnings
deriving DecidableEq

/-- The module-level mutable state of the plugin: the per-file code-fix
registry (a Map from file name to a Map from span key to problem), the
configuration cache and the global console.warn slot. -/
structure PluginState where
  codeFixActions : AList String (AList (Nat × Nat) Problem)
  configCache : ConfigCache
  consoleWarn : WarnSink
deriving DecidableEq

/-- The plugin state at load: empty registry, empty cache, the host
sink in console.warn. -/
def initialState : PluginState :=
  { codeFixActions := [], configCache := initialConfigCache,
    consoleWarn := .hostSink 0 }

/-- Embeds makeDiagnostic (src lines 63-88): the message is the failure
text followed by the parenthesised rule name when one exists; the
category is Warning when alwaysShowRuleFailuresAsWarnings === true,
else Error when the failure carries rule severity error, else
Warning. -/
def makeDiagnostic (config : PluginConfig) (problem : Problem) (file : String) :
    Diagnostic :=
  let message :=
    match problem.ruleName with
    | some rule => problem.failureText ++ " (" ++ rule ++ ")"
    | none => problem.failureText
  let category :=
    if config.alwaysShowRuleFailuresAsWarnings = some true then
      DiagnosticCategory.Warning
    else if problem.ruleSeverity = some "error" then
      DiagnosticCategory.Error
    else
      DiagnosticCategory.Warning
  { file := file, start := problem.startPos,
    length := problem.endPos - problem.startPos,
    messageText := message, category := category,
    source := "tslint", code := TSLINT_ERROR_CODE }

/-- Embeds filterProblemsForDocument (src lines 92-103): keep only
failures whose normalized origin file equals the normalized queried
document path.  The per-call Map in the source only memoizes the pure
normalization and does not change the result. -/
def filterProblemsForDocument (normalizePath : String → String)
    (documentPath : String) (failures : List Problem) : List Problem :=
  failures.filter (fun each => normalizePath each.fileName == normalizePath documentPath)

/-- Embeds recordCodeAction (src lines 115-130): a problem is recorded
under its (start, end) span key only when it carries a fix whose
replacements are not empty; otherwise the registry is unchanged. -/
def recordCodeAction (problem : Problem) (fileName : String)
    (codeFixActions : AList String (AList (Nat × Nat) Problem)) :
    AList String (AList (Nat × Nat) Problem) :=
  let fix : Option Fix :=
    match problem.fix with
    | some f => if replacementsAreEmpty f then none else some f
    | none => none
  match fix with
  | none => codeFixActions
  | some _ =>
    let documentAutoFixes := (mapGet codeFixActions fileName).getD []
    mapSet codeFixActions fileName
      (mapSet documentAutoFixes (problem.startPos, problem.endPos) problem)

/-- The stale-fix clearing step of the diagnostics operation (src lines
299-301): if the registry has an entry for the file, delete it. -/
def clearFileEntry (m : AList String (AList (Nat × Nat) Problem)) (fileName : String) :
    AList String (AList (Nat × Nat) Problem) :=
  if mapHas m fileName then mapDelete m fileName else m

/-- JavaScript String.prototype.endsWith on our strings. -/
def strEndsWith (s suffix : String) : Bool :=
  suffix.data.isSuffixOf s.data

/-- The linterOptions exclusion test (src lines 307-309):
configuration.linterOptions && configuration.linterOptions.exclude &&
exclude.some(pattern => minimatch(pattern).match(fileName)), with the
minimatch glob matcher supplied as a function. -/
def isExcluded (configuration : TsConfiguration)
    (globMatch : String → String → Bool) (fileName : String) : Bool :=
  match configuration.linterOptions with
  | some lo =>
    match lo.exclude with
    | some patterns => patterns.any (fun pattern => globMatch pattern fileName)
    | none => false
  | none => false

/-- Embeds proxy.getSemanticDiagnostics (src lines 292-361).  External
collaborators are parameters: the tslint configuration API, the path
normalizer, the minimatch glob matcher, and the linter run (lint
followed by getResult(), whose thrown exceptions are Except.error; its
result list is result.failures).  prior is the host diagnostics for the
file.  Returns the diagnostics together with the new module state. -/
def getSemanticDiagnostics (api : TslintApi) (normalizePath : String → String)
    (globMatch : String → String → Bool)
    (lint : TsConfiguration → Except String (List Problem))
    (config : PluginConfig) (prior : List Diagnostic) (fileName : String)
    (s : PluginState) : List Diagnostic × PluginState :=
  if config.supressWhileTypeErrorsPresent = true ∧ 0 < prior.length then
    (prior, s)
  else
    let s1 : PluginState :=
      { s with codeFixActions := clearFileEntry s.codeFixActions fileName }
    if config.ignoreDefinitionFiles = some true ∧ strEndsWith fileName ".d.ts" = true then
      (prior, s1)
    else
      match getConfiguration api config fileName s1.configCache with
      | .error _ => (prior, s1)
      | .ok (configuration, cache1) =>
        let s2 := { s1 with configCache := cache1 }
        if isExcluded configuration globMatch fileName = true then
          (prior, s2)
        else
          let warn := s2.consoleWarn
          let s3 := { s2 with consoleWarn := WarnSink.captureWarnings }
          match lint configuration with
          | .error _ => (prior, { s3 with consoleWarn := warn })
          | .ok failures =>
            let s4 := { s3 with consoleWarn := warn }
            if 0 < failures.length then
              let tslintProblems := filterProblemsForDocument normalizePath fileName failures
              if 0 < tslintProblems.length then
                let diagnostics :=
                  prior ++ tslintProblems.map (fun p => makeDiagnostic config p fileName)
                let newRegistry :=
                  tslintProblems.foldl (fun m p => recordCodeAction p fileName m)
                    s4.codeFixActions
                let s5 := { s4 with codeFixActions := newRegistry }
                (diagnostics, s5)
              else (prior, s4)
            else (prior, s4)

/-! ## Map lemmas -/

lemma mapGet_mapDelete_self [DecidableEq α] (m : AList α β) (k : α) :
    mapGet (mapDelete m k) k = none := by
  induction m with
  | nil => rfl
  | cons kv rest ih =>
    obtain ⟨k', v⟩ := kv
    by_cases h : k' = k
    · simpa [mapDelete, List.filter_cons, h] using ih
    · simpa [mapDelete, List.filter_cons, h, mapGet] using ih

lemma mapGet_none_of_mapHas_false [DecidableEq α] (m : AList α β) (k : α)
    (h : mapHas m k = false) : mapGet m k = none := by
  cases hg : mapGet m k with
  | none => rfl
  | some v => rw [mapHas, hg] at h; simp at h

lemma mapGet_clearFileEntry_self (m : AList String (AList (Nat × Nat) Problem))
    (fileName : String) : mapGet (clearFileEntry m fileName) fileName = none := by
  unfold clearFileEntry
  split
  · exact mapGet_mapDelete_self m fileName
  · next h => exact mapGet_none_of_mapHas_false m fileName (by simpa using h)

lemma mapGet_mapSet_self [DecidableEq α] (m : AList α β) (k : α) (v : β) :
    mapGet (mapSet m k v) k = some v := by
  induction m with
  | nil => simp [mapSet, mapGet]
  | cons kv rest ih =>
    obtain ⟨k', w⟩ := kv
    by_cases h : k' = k
    · simp [mapSet, mapGet, h]
    · simp [mapSet, mapGet, h, ih]

lemma snd_mem_mapSet [DecidableEq α] (m : AList α β) (k : α) (v : β) (kv : α × β)
    (h : kv ∈ mapSet m k v) : kv.2 = v ∨ kv ∈ m := by
  induction m with
  | nil =>
    simp [mapSet] at h
    left; rw [h]
  | cons hd rest ih =>
    obtain ⟨k', w⟩ := hd
    by_cases hk : k' = k
    · simp only [mapSet, if_pos hk] at h
      rcases List.mem_cons.mp h with rfl | hmem
      · left; rfl
      · right; exact List.mem_cons_of_mem _ hmem
    · simp only [mapSet, if_neg hk] at h
      rcases List.mem_cons.mp h with rfl | hmem
      · right; exact List.mem_cons_self _ _
      · rcases ih hmem with hv | hmem2
        · left; exact hv
        · right; exact List.mem_cons_of_mem _ hmem2

/-! ## Fixtures shared by the diagnostics theorems -/

/-- The identity path normalizer. -/
def normId : String → String := fun s => s

/-- A glob matcher that matches nothing. -/
def globNone : String → String → Bool := fun _ _ => false

/-- A host prior diagnostic list with one type error. -/
def hostPrior : List Diagnostic :=
  [{ file := "f.ts", start := 0, length := 1, messageText := "type error",
     category := .Error, source := "ts", code := 2300 }]

/-- A lint failure in f.ts with a one-replacement fix. -/
def exLintProblem : Problem :=
  { ruleName := some "semicolon", failureText := "Missing semicolon",
    startPos := 3, endPos := 4, ruleSeverity := none,
    fix := some (.list [{ start := 3, length := 0, text := ";" }]),
    fileName := "f.ts", startLine := 0 }

/-- A linter run reporting exactly exLintProblem. -/
def exLint : TsConfiguration → Except String (List Problem) :=
  fun _ => .ok [exLintProblem]

/-- A linter run that throws. -/
def exLintCrash : TsConfiguration → Except String (List Problem) :=
  fun _ => .error "tslint crashed"

/-- The plugin configuration block carrying the specification-spelled
key suppressWhileTypeErrorsPresent set to true, with the key the code
reads left at its default. -/
def c2Config : PluginConfig :=
  { alwaysShowRuleFailuresAsWarnings := none, ignoreDefinitionFiles := none,
    configFile := none, disableNoUnusedVariableRule := none,
    supressWhileTypeErrorsPresent := false,
    suppressWhileTypeErrorsPresent := true,
    mockTypeScriptVersion := false }

/-- The plugin configuration block with the code-spelled key
supressWhileTypeErrorsPresent set to true. -/
def c2ConfigCodeSpelled : PluginConfig :=
  { alwaysShowRuleFailuresAsWarnings := none, ignoreDefinitionFiles := none,
    configFile := none, disableNoUnusedVariableRule := none,
    supressWhileTypeErrorsPresent := true,
    suppressWhileTypeErrorsPresent := true,
    mockTypeScriptVersion := false }

/-! ## C2 -/

/-- Counterexample for C2 as stated: with the option under the
specification-listed name suppressWhileTypeErrorsPresent set to true
and non-empty prior diagnostics, the intercepted operation still lints
and appends a diagnostic, because the source reads the key only under
the spelling supressWhileTypeErrorsPresent. -/
theorem C2_counterexample_spec_spelled_key_ignored :
    c2Config.suppressWhileTypeErrorsPresent = true ∧
    0 < hostPrior.length ∧
    (getSemanticDiagnostics exApi normId globNone exLint c2Config hostPrior
      "f.ts" initialState).1 ≠ hostPrior := by
  decide

/-- C2 amended: for every file where the host prior diagnostics are
non-empty and the option under the key the code actually reads,
supressWhileTypeErrorsPresent, is true, the intercepted diagnostics
operation returns the host diagnostics unchanged and the module state
untouched (no lint, no registry write, no appended diagnostics). -/
theorem C2_suppress_while_type_errors_amended :
    ∀ (api : TslintApi) (normalizePath : String → String)
      (globMatch : String → String → Bool)
      (lint : TsConfiguration → Except String (List Problem))
      (config : PluginConfig) (prior : List Diagnostic) (fileName : String)
      (s : PluginState),
      config.supressWhileTypeErrorsPresent = true → 0 < prior.length →
      getSemanticDiagnostics api normalizePath globMatch lint config prior
        fileName s = (prior, s) := by
  intro api normalizePath globMatch lint config prior fileName s h hp
  simp [getSemanticDiagnostics, h, hp]

/-- Witness for C2 amended at a concrete call with the code-spelled key
set and one prior diagnostic. -/
theorem C2_suppress_while_type_errors_amended_witness :
    c2ConfigCodeSpelled.supressWhileTypeErrorsPresent = true ∧
    0 < hostPrior.length ∧
    getSemanticDiagnostics exApi normId globNone exLint c2ConfigCodeSpelled
      hostPrior "f.ts" initialState = (hostPrior, initialState) :=
  ⟨rfl, by decide,
   C2_suppress_while_type_errors_amended exApi normId globNone exLint
     c2ConfigCodeSpelled hostPrior "f.ts" initialState rfl (by decide)⟩

/-! ## C4 -/

/-- C4: when the linter run throws, the intercepted diagnostics
operation returns exactly the host prior diagnostics (the exception
does not propagate) and the registry holds no entry for the file
afterwards. -/
theorem C4_linter_exception_short_circuit :
    ∀ (api : TslintApi) (normalizePath : String → String)
      (globMatch : String → String → Bool)
      (lint : TsConfiguration → Except String (List Problem))
      (config : PluginConfig) (prior : List Diagnostic) (fileName : String)
      (s : PluginState) (cfg : TsConfiguration) (cache1 : ConfigCache) (e : String),
      ¬(config.supressWhileTypeErrorsPresent = true ∧ 0 < prior.length) →
      ¬(config.ignoreDefinitionFiles = some true ∧ strEndsWith fileName ".d.ts" = true) →
      getConfiguration api config fileName s.configCache = .ok (cfg, cache1) →
      isExcluded cfg globMatch fileName = false →
      lint cfg = .error e →
      (getSemanticDiagnostics api normalizePath globMatch lint config prior
        fileName s).1 = prior ∧
      mapGet (getSemanticDiagnostics api normalizePath globMatch lint config prior
        fileName s).2.codeFixActions fileName = none := by
  intro api normalizePath globMatch lint config prior fileName s cfg cache1 e
    h1 h2 h3 h4 h5
  refine ⟨?_, ?_⟩ <;>
    simp [getSemanticDiagnostics, h1, h2, h3, h4, h5, mapGet_clearFileEntry_self]

/-- The cache slot produced by resolving with exApi for f.ts. -/
def exCacheOut : ConfigCache :=
  { filePath := some "f.ts", isDefaultConfig := false,
    configuration := some exConfiguration, configFilePath := some "tslint.json" }

/-- Witness for C4 at a concrete call where the linter throws. -/
theorem C4_linter_exception_short_circuit_witness :
    (¬(exPluginConfig.supressWhileTypeErrorsPresent = true ∧ 0 < hostPrior.length)) ∧
    (¬(exPluginConfig.ignoreDefinitionFiles = some true ∧
        strEndsWith "f.ts" ".d.ts" = true)) ∧
    getConfiguration exApi exPluginConfig "f.ts" initialState.configCache =
      .ok (exConfiguration, exCacheOut) ∧
    isExcluded exConfiguration globNone "f.ts" = false ∧
    exLintCrash exConfiguration = .error "tslint crashed" ∧
    (getSemanticDiagnostics exApi normId globNone exLintCrash exPluginConfig
      hostPrior "f.ts" initialState).1 = hostPrior ∧
    mapGet (getSemanticDiagnostics exApi normId globNone exLintCrash exPluginConfig
      hostPrior "f.ts" initialState).2.codeFixActions "f.ts" = none :=
  ⟨by decide, by decide, by decide, by decide, by decide,
   C4_linter_exception_short_circuit exApi normId globNone exLintCrash
     exPluginConfig hostPrior "f.ts" initialState exConfiguration exCacheOut
     "tslint crashed" (by decide) (by decide) (by decide) (by decide) (by decide)⟩

/-! ## C5 -/

/-- C5: the global console.warn slot is saved before the lint call,
redirected to captureWarnings for its duration, and restored on every
exit path of the intercepted diagnostics operation, so after any call
the slot equals its value before the call. -/
theorem C5_console_warn_restored :
    ∀ (api : TslintApi) (normalizePath : String → String)
      (globMatch : String → String → Bool)
      (lint : TsConfiguration → Except String (List Problem))
      (config : PluginConfig) (prior : List Diagnostic) (fileName : String)
      (s : PluginState),
      ((getSemanticDiagnostics api normalizePath globMatch lint config prior
        fileName s).2).consoleWarn = s.consoleWarn := by
  intro api normalizePath globMatch lint config prior fileName s
  simp only [getSemanticDiagnostics]
  repeat' split
  all_goals simp

/-! ## C9 -/

/-- C9: when the lint pass reports no failure for the queried file
(zero failures, or every failure filtered out as belonging to another
file), the intercepted diagnostics operation returns exactly the host
prior diagnostics. -/
theorem C9_no_failures_prior_unchanged :
    ∀ (api : TslintApi) (normalizePath : String → String)
      (globMatch : String → String → Bool)
      (lint : TsConfiguration → Except String (List Problem))
      (config : PluginConfig) (prior : List Diagnostic) (fileName : String)
      (s : PluginState) (cfg : TsConfiguration) (cache1 : ConfigCache)
      (failures : List Problem),
      ¬(config.supressWhileTypeErrorsPresent = true ∧ 0 < prior.length) →
      ¬(config.ignoreDefinitionFiles = some true ∧ strEndsWith fileName ".d.ts" = true) →
      getConfiguration api config fileName s.configCache = .ok (cfg, cache1) →
      isExcluded cfg globMatch fileName = false →
      lint cfg = .ok failures →
      filterProblemsForDocument normalizePath fileName failures = [] →
      (getSemanticDiagnostics api normalizePath globMatch lint config prior
        fileName s).1 = prior := by
  intro api normalizePath globMatch lint config prior fileName s cfg cache1
    failures h1 h2 h3 h4 h5 h6
  simp [getSemanticDiagnostics, h1, h2, h3, h4, h5, h6]

/-- A linter run whose only failure belongs to another file. -/
def exLintOtherFile : TsConfiguration → Except String (List Problem) :=
  fun _ => .ok [{ exLintProblem with fileName := "g.ts" }]

/-- Witness for C9 at a concrete call whose lint result is entirely
filtered out. -/
theorem C9_no_failures_prior_unchanged_witness :
    (¬(exPluginConfig.supressWhileTypeErrorsPresent = true ∧ 0 < hostPrior.length)) ∧
    getConfiguration exApi exPluginConfig "f.ts" initialState.configCache =
      .ok (exConfiguration, exCacheOut) ∧
    exLintOtherFile exConfiguration = .ok [{ exLintProblem with fileName := "g.ts" }] ∧
    filterProblemsForDocument normId "f.ts" [{ exLintProblem with fileName := "g.ts" }] = [] ∧
    (getSemanticDiagnostics exApi normId globNone exLintOtherFile exPluginConfig
      hostPrior "f.ts" initialState).1 = hostPrior :=
  ⟨by decide, by decide, by decide, by decide,
   C9_no_failures_prior_unchanged exApi normId globNone exLintOtherFile
     exPluginConfig hostPrior "f.ts" initialState exConfiguration exCacheOut
     [{ exLintProblem with fileName := "g.ts" }]
     (by decide) (by decide) (by decide) (by decide) (by decide) (by decide)⟩

/-! ## The intercepted code-fixes operation -/

/-- A host text span. -/
structure TextSpan where
  start : Nat
  length : Nat
deriving DecidableEq

/-- A host text change. -/
structure TextChange where
  newText : String
  span : TextSpan
deriving DecidableEq

/-- A host per-file text-change set. -/
structure FileTextChange where
  fileName : String
  textChanges : List TextChange
deriving DecidableEq

/-- The identity of a code-fix action description.  The source builds
description strings; every string it builds is determined by the action
kind together with the rule name, which is what this type records.
hostFix stands for an action the host itself produced in prior. -/
inductive FixDescription where
  | hostFix (id : Nat)
  | fixRule (ruleName : Option String)
  | fixAllOfRule (ruleName : Option String)
  | fixAllAutoFixable
  | disableRule (ruleName : Option String)
  | openConfigFile
deriving DecidableEq

/-- A code-fix action as the plugin returns it. -/
structure CodeFix where
  description : FixDescription
  changes : List FileTextChange
deriving DecidableEq

/-- Embeds convertReplacementToTextChange (src lines 179-184). -/
def convertReplacementToTextChange (repl : Replacement) : TextChange :=
  { newText := repl.text, span := { start := repl.start, length := repl.length } }

/-- Embeds problemToFileTextChange (src lines 203-210):
getReplacements(problem.getFix()) mapped to text changes. -/
def problemToFileTextChange (problem : Problem) (fileName : String) :
    FileTextChange :=
  { fileName := fileName,
    textChanges := (problemReplacements problem).map convertReplacementToTextChange }

/-- Embeds addRuleFailureFix (src lines 211-216). -/
def addRuleFailureFix (fixes : List CodeFix) (problem : Problem)
    (fileName : String) : List CodeFix :=
  fixes ++ [{ description := .fixRule problem.ruleName,
              changes := [problemToFileTextChange problem fileName] }]

/-- Embeds addRuleFailureFixAll (src lines 218-233): collect a change
for every recorded problem of the rule in registry order, and push the
aggregate action only when two or more changes were collected. -/
def addRuleFailureFixAll (fixes : List CodeFix) (ruleName : Option String)
    (problems : AList (Nat × Nat) Problem) (fileName : String) : List CodeFix :=
  let changes :=
    ((mapValues problems).filter (fun problem => decide (problem.ruleName = ruleName))).map
      (fun problem => problemToFileTextChange problem fileName)
  if changes.length < 2 then fixes
  else fixes ++ [{ description := .fixAllOfRule ruleName, changes := changes }]

/-- The JavaScript template-literal rendering of a possibly-null rule
name (null prints as the text null). -/
def showRuleName (ruleName : Option String) : String :=
  ruleName.getD "null"

/-- Embeds addDisableRuleFix (src lines 234-245): one zero-length
insertion of a tslint:disable-next-line comment at the line start of
the problem's start position, taken from the file's line-start
table. -/
def addDisableRuleFix (fixes : List CodeFix) (problem : Problem)
    (fileName : String) (lineStarts : Nat → Nat) : List CodeFix :=
  let change : TextChange :=
    { newText := "// tslint:disable-next-line:" ++ showRuleName problem.ruleName ++ "\n",
      span := { start := lineStarts problem.startLine, length := 0 } }
  fixes ++ [{ description := .disableRule problem.ruleName,
              changes := [{ fileName := fileName, textChanges := [change] }] }]

/-- Embeds addOpenConfigurationFix (src lines 246-258): the action is
behind a flag that is false in this build, so nothing is ever
pushed. -/
def addOpenConfigurationFix (fixes : List CodeFix) (cache : ConfigCache) :
    List CodeFix :=
  let openConfigFixEnabled := false
  if openConfigFixEnabled = true ∧ cache.configFilePath.isSome then
    fixes ++ [{ description := .openConfigFile,
                changes := [{ fileName := cache.configFilePath.getD "",
                              textChanges := [] }] }]
  else fixes

/-- The aggregate fix pushed by addAllAutoFixable for a file's recorded
fixes. -/
def fixAllAutoFixableFix (documentFixes : AList (Nat × Nat) Problem)
    (fileName : String) : CodeFix :=
  let allReplacements := getNonOverlappingReplacements documentFixes
  { description := .fixAllAutoFixable,
    changes := [{ fileName := fileName,
                  textChanges := allReplacements.map convertReplacementToTextChange }] }

/-- Embeds addAllAutoFixable (src lines 259-268). -/
def addAllAutoFixable (fixes : List CodeFix)
    (documentFixes : AList (Nat × Nat) Problem) (fileName : String) : List CodeFix :=
  fixes ++ [fixAllAutoFixableFix documentFixes fileName]

/-- Embeds proxy.getCodeFixesAtPosition (src lines 362-384): after the
same supress short-circuit as the diagnostics operation, when the
registry holds fixes for the file, the located problem (if any) yields
the single fix, the fix-all-of-rule fix, and (after the aggregate) the
open-configuration and disable-rule fixes; the fix-all-auto-fixable
aggregate is pushed whenever the registry holds fixes for the file,
located problem or not.  prior is the host result, lineStarts the
file's line-start table. -/
def getCodeFixesAtPosition (config : PluginConfig) (prior : List CodeFix)
    (lineStarts : Nat → Nat) (fileName : String) (startPos endPos : Nat)
    (s : PluginState) : List CodeFix :=
  if config.supressWhileTypeErrorsPresent = true ∧ 0 < prior.length then prior
  else
    match mapGet s.codeFixActions fileName with
    | none => prior
    | some documentFixes =>
      match mapGet documentFixes (startPos, endPos) with
      | some problem =>
        let fixes := addRuleFailureFix prior problem fileName
        let fixes := addRuleFailureFixAll fixes problem.ruleName documentFixes fileName
        let fixes := addAllAutoFixable fixes documentFixes fileName
        let fixes := addOpenConfigurationFix fixes s.configCache
        addDisableRuleFix fixes problem fileName lineStarts
      | none => addAllAutoFixable prior documentFixes fileName

/-! ## C3 -/

lemma addOpenConfigurationFix_eq (fixes : List CodeFix) (cache : ConfigCache) :
    addOpenConfigurationFix fixes cache = fixes := by
  simp [addOpenConfigurationFix]

/-- C3: whenever the registry holds recorded failures for the file (and
the supress short-circuit does not fire), the returned fix list
contains the fix-all-auto-fixable aggregate built by the
overlap-resolution algorithm over every recorded failure, whether or
not a failure is located at the queried span; when none is located,
the result is exactly the host fixes plus that single aggregate. -/
theorem C3_fix_all_auto_fixable_always_attempted :
    ∀ (config : PluginConfig) (prior : List CodeFix) (lineStarts : Nat → Nat)
      (fileName : String) (startPos endPos : Nat) (s : PluginState)
      (documentFixes : AList (Nat × Nat) Problem),
      mapGet s.codeFixActions fileName = some documentFixes →
      ¬(config.supressWhileTypeErrorsPresent = true ∧ 0 < prior.length) →
      fixAllAutoFixableFix documentFixes fileName ∈
        getCodeFixesAtPosition config prior lineStarts fileName startPos endPos s ∧
      (mapGet documentFixes (startPos, endPos) = none →
        getCodeFixesAtPosition config prior lineStarts fileName startPos endPos s =
          prior ++ [fixAllAutoFixableFix documentFixes fileName]) := by
  intro config prior lineStarts fileName startPos endPos s documentFixes hdf h1
  constructor
  · cases hp : mapGet documentFixes (startPos, endPos) with
    | none =>
      simp [getCodeFixesAtPosition, h1, hdf, hp, addAllAutoFixable]
    | some problem =>
      simp only [getCodeFixesAtPosition, if_neg h1, hdf, hp]
      simp only [addOpenConfigurationFix_eq, addAllAutoFixable, addDisableRuleFix]
      simp [List.mem_append]
  · intro hp
    simp [getCodeFixesAtPosition, h1, hdf, hp, addAllAutoFixable]

/-- A registry state holding one recorded failure for f.ts at span
(3,4). -/
def c3State : PluginState :=
  { codeFixActions := [("f.ts", [((3, 4), exLintProblem)])],
    configCache := initialConfigCache, consoleWarn := .hostSink 0 }

/-- Witness for C3: at a query span with no recorded failure, the
result consists of the host fixes plus exactly the aggregate
fix-all action. -/
theorem C3_fix_all_auto_fixable_always_attempted_witness :
    mapGet c3State.codeFixActions "f.ts" = some [((3, 4), exLintProblem)] ∧
    (¬(exPluginConfig.supressWhileTypeErrorsPresent = true ∧
        0 < ([] : List CodeFix).length)) ∧
    mapGet [((3, 4), exLintProblem)] ((0 : Nat), (0 : Nat)) = none ∧
    (fixAllAutoFixableFix [((3, 4), exLintProblem)] "f.ts" ∈
      getCodeFixesAtPosition exPluginConfig [] (fun _ => 0) "f.ts" 0 0 c3State ∧
     (mapGet [((3, 4), exLintProblem)] ((0 : Nat), (0 : Nat)) = none →
      getCodeFixesAtPosition exPluginConfig [] (fun _ => 0) "f.ts" 0 0 c3State =
        [] ++ [fixAllAutoFixableFix [((3, 4), exLintProblem)] "f.ts"])) :=
  ⟨by decide, by decide, by decide,
   C3_fix_all_auto_fixable_always_attempted exPluginConfig [] (fun _ => 0)
     "f.ts" 0 0 c3State [((3, 4), exLintProblem)] (by decide) (by decide)⟩

/-! ## C8 -/

/-- The aggregate action pushed by addRuleFailureFixAll: one change per
recorded failure of the rule, in registry order. -/
def fixAllOfRuleFix (ruleName : Option String)
    (problems : AList (Nat × Nat) Problem) (fileName : String) : CodeFix :=
  { description := .fixAllOfRule ruleName,
    changes := ((mapValues problems).filter
        (fun p => decide (p.ruleName = ruleName))).map
      (fun p => problemToFileTextChange p fileName) }

/-- C8: the fix-all-of-rule action is omitted when fewer than two
recorded failures of the rule exist (in particular when exactly one
does), and is emitted exactly when two or more exist, containing one
change per matching failure in registry order. -/
theorem C8_fix_all_of_rule_threshold :
    ∀ (fixes : List CodeFix) (ruleName : Option String)
      (problems : AList (Nat × Nat) Problem) (fileName : String),
      (((mapValues problems).filter
          (fun p => decide (p.ruleName = ruleName))).length < 2 →
        addRuleFailureFixAll fixes ruleName problems fileName = fixes) ∧
      (2 ≤ ((mapValues problems).filter
          (fun p => decide (p.ruleName = ruleName))).length →
        addRuleFailureFixAll fixes ruleName problems fileName =
          fixes ++ [fixAllOfRuleFix ruleName problems fileName]) ∧
      (addRuleFailureFixAll fixes ruleName problems fileName ≠ fixes ↔
        2 ≤ ((mapValues problems).filter
          (fun p => decide (p.ruleName = ruleName))).length) := by
  intro fixes ruleName problems fileName
  refine ⟨?_, ?_, ?_⟩
  · intro h
    simp [addRuleFailureFixAll, h]
  · intro h
    have h2 : ¬(((mapValues problems).filter
        (fun p => decide (p.ruleName = ruleName))).length < 2) := not_lt.mpr h
    simp [addRuleFailureFixAll, h2, fixAllOfRuleFix]
  · constructor
    · intro hne
      by_contra hlt
      exact hne (by simp [addRuleFailureFixAll, lt_of_not_le hlt])
    · intro h
      have h2 : ¬(((mapValues problems).filter
          (fun p => decide (p.ruleName = ruleName))).length < 2) := not_lt.mpr h
      simp [addRuleFailureFixAll, h2]

/-- A second recorded semicolon failure at span (7,8). -/
def exLintProblem2 : Problem :=
  { ruleName := some "semicolon", failureText := "Missing semicolon",
    startPos := 7, endPos := 8, ruleSeverity := none,
    fix := some (.list [{ start := 7, length := 0, text := ";" }]),
    fileName := "f.ts", startLine := 0 }

/-- A registry for f.ts with two recorded semicolon failures. -/
def c8Problems : AList (Nat × Nat) Problem :=
  [((3, 4), exLintProblem), ((7, 8), exLintProblem2)]

/-- Witness for C8: with two recorded semicolon failures the aggregate
action is emitted with both changes. -/
theorem C8_fix_all_of_rule_threshold_witness :
    2 ≤ ((mapValues c8Problems).filter
      (fun p => decide (p.ruleName = some "semicolon"))).length ∧
    addRuleFailureFixAll [] (some "semicolon") c8Problems "f.ts" =
      [] ++ [fixAllOfRuleFix (some "semicolon") c8Problems "f.ts"] :=
  ⟨by decide,
   (C8_fix_all_of_rule_threshold [] (some "semicolon") c8Problems "f.ts").2.1
     (by decide)⟩

/-! ## C10 -/

/-- A recorded problem carries a fix whose replacements are not
empty. -/
def problemHasNonEmptyFix (p : Problem) : Prop :=
  ∃ f, p.fix = some f ∧ replacementsAreEmpty f = false

lemma recordCodeAction_registry_invariant (p : Problem) (fileName : String)
    (m : AList String (AList (Nat × Nat) Problem))
    (hm : ∀ df, mapGet m fileName = some df → ∀ kv ∈ df, problemHasNonEmptyFix kv.2) :
    ∀ df, mapGet (recordCodeAction p fileName m) fileName = some df →
      ∀ kv ∈ df, problemHasNonEmptyFix kv.2 := by
  intro df hdf kv hkv
  unfold recordCodeAction at hdf
  cases hf : p.fix with
  | none =>
    rw [hf] at hdf
    exact hm df hdf kv hkv
  | some f =>
    by_cases he : replacementsAreEmpty f = true
    · rw [hf] at hdf
      simp only [he, if_true] at hdf
      exact hm df hdf kv hkv
    · have he' : replacementsAreEmpty f = false := by
        revert he; cases replacementsAreEmpty f <;> simp
      rw [hf] at hdf
      simp only [he', Bool.false_eq_true, if_false] at hdf
      rw [mapGet_mapSet_self] at hdf
      have hdf2 : df = mapSet ((mapGet m fileName).getD []) (p.startPos, p.endPos) p := by
        injection hdf.symm
      rw [hdf2] at hkv
      rcases snd_mem_mapSet _ _ _ kv hkv with hv | hmem
      · exact ⟨f, by rw [hv, hf], he'⟩
      · cases hmg : mapGet m fileName with
        | none => rw [hmg] at hmem; simp at hmem
        | some df0 => rw [hmg] at hmem; exact hm df0 hmg kv hmem

lemma foldl_recordCodeAction_registry_invariant (problems : List Problem)
    (fileName : String) :
    ∀ (m : AList String (AList (Nat × Nat) Problem)),
      (∀ df, mapGet m fileName = some df → ∀ kv ∈ df, problemHasNonEmptyFix kv.2) →
      ∀ df, mapGet (problems.foldl (fun acc p => recordCodeAction p fileName acc) m)
          fileName = some df → ∀ kv ∈ df, problemHasNonEmptyFix kv.2 := by
  induction problems with
  | nil => intro m hm; exact hm
  | cons p rest ih =>
    intro m hm
    simp only [List.foldl_cons]
    exact ih (recordCodeAction p fileName m)
      (recordCodeAction_registry_invariant p fileName m hm)

/-- C10 amended: a failure with no fix, or a fix whose replacements are
empty, is never recorded (recordCodeAction leaves the registry
unchanged); consequently, after a diagnostics pass every problem
recorded for the file carries a non-empty fix; at a span with no
recorded problem, the code-fixes operation offers none of the
problem-gated actions: with no recorded failures for the file it
returns exactly the host fixes, and otherwise it returns the host
fixes plus only the span-independent fix-all-auto-fixable
aggregate. -/
theorem C10_registry_and_unrecorded_span_amended :
    (∀ (problem : Problem) (fileName : String)
        (m : AList String (AList (Nat × Nat) Problem)),
        problem.fix.all replacementsAreEmpty = true →
        recordCodeAction problem fileName m = m) ∧
    (∀ (api : TslintApi) (normalizePath : String → String)
        (globMatch : String → String → Bool)
        (lint : TsConfiguration → Except String (List Problem))
        (config : PluginConfig) (prior : List Diagnostic) (fileName : String)
        (s : PluginState) (df : AList (Nat × Nat) Problem),
        ¬(config.supressWhileTypeErrorsPresent = true ∧ 0 < prior.length) →
        mapGet ((getSemanticDiagnostics api normalizePath globMatch lint config
          prior fileName s).2).codeFixActions fileName = some df →
        ∀ kv ∈ df, problemHasNonEmptyFix kv.2) ∧
    (∀ (config : PluginConfig) (prior : List CodeFix) (lineStarts : Nat → Nat)
        (fileName : String) (startPos endPos : Nat) (s : PluginState),
        mapGet s.codeFixActions fileName = none →
        getCodeFixesAtPosition config prior lineStarts fileName startPos endPos s =
          prior) ∧
    (∀ (config : PluginConfig) (prior : List CodeFix) (lineStarts : Nat → Nat)
        (fileName : String) (startPos endPos : Nat) (s : PluginState)
        (df : AList (Nat × Nat) Problem),
        ¬(config.supressWhileTypeErrorsPresent = true ∧ 0 < prior.length) →
        mapGet s.codeFixActions fileName = some df →
        mapGet df (startPos, endPos) = none →
        getCodeFixesAtPosition config prior lineStarts fileName startPos endPos s =
          prior ++ [fixAllAutoFixableFix df fileName]) := by
  refine ⟨?_, ?_, ?_, ?_⟩
  · intro problem fileName m h
    unfold recordCodeAction
    cases hf : problem.fix with
    | none => rfl
    | some f =>
      rw [hf] at h
      simp only [Option.all_some] at h
      simp [h]
  · intro api normalizePath globMatch lint config prior fileName s df h1 hget
    simp only [getSemanticDiagnostics, if_neg h1] at hget
    repeat' split at hget
    all_goals try (simp [mapGet_clearFileEntry_self] at hget)
    exact foldl_recordCodeAction_registry_invariant _ fileName _
      (by intro df' h'
          rw [mapGet_clearFileEntry_self] at h'
          cases h')
      df hget
  · intro config prior lineStarts fileName startPos endPos s hnone
    by_cases h1 : config.supressWhileTypeErrorsPresent = true ∧ 0 < prior.length
    · simp [getCodeFixesAtPosition, h1]
    · simp [getCodeFixesAtPosition, h1, hnone]
  · intro config prior lineStarts fileName startPos endPos s df h1 hdf hp
    simp [getCodeFixesAtPosition, h1, hdf, hp, addAllAutoFixable]

/-- A lint failure carrying no fix at all, at span (0,1). -/
def c10FixlessProblem : Problem :=
  { ruleName := some "no-console", failureText := "no console calls",
    startPos := 0, endPos := 1, ruleSeverity := none, fix := none,
    fileName := "f.ts", startLine := 0 }

/-- A linter run reporting the fixless failure together with the
fixable semicolon failure. -/
def c10Lint : TsConfiguration → Except String (List Problem) :=
  fun _ => .ok [c10FixlessProblem, exLintProblem]

/-- The module state after a diagnostics pass over f.ts with those two
failures. -/
def c10State : PluginState :=
  (getSemanticDiagnostics exApi normId globNone c10Lint exPluginConfig []
    "f.ts" initialState).2

/-- Counterexample for C10 as stated: the fixless failure is indeed
never recorded, but at its span the code-fixes operation still offers
a fix action, because the fix-all-auto-fixable aggregate (built from
the other recorded failure) is span-independent; so it is not true
that none of the four fix actions is offered there. -/
theorem C10_counterexample_aggregate_offered_at_fixless_span :
    c10FixlessProblem.fix = none ∧
    c10Lint exConfiguration = .ok [c10FixlessProblem, exLintProblem] ∧
    mapGet c10State.codeFixActions "f.ts" = some [((3, 4), exLintProblem)] ∧
    mapGet [((3, 4), exLintProblem)]
      (c10FixlessProblem.startPos, c10FixlessProblem.endPos) = none ∧
    getCodeFixesAtPosition exPluginConfig [] (fun _ => 0) "f.ts"
      c10FixlessProblem.startPos c10FixlessProblem.endPos c10State =
      [fixAllAutoFixableFix [((3, 4), exLintProblem)] "f.ts"] ∧
    getCodeFixesAtPosition exPluginConfig [] (fun _ => 0) "f.ts"
      c10FixlessProblem.startPos c10FixlessProblem.endPos c10State ≠ [] := by
  decide

/-- Witness for C10 amended, exercising each part at concrete inputs:
the fixless failure is not recorded, the post-pass registry for f.ts
holds only problems with non-empty fixes, an empty registry yields
exactly the host fixes, and an unrecorded span yields only the
aggregate. -/
theorem C10_registry_and_unrecorded_span_amended_witness :
    (c10FixlessProblem.fix.all replacementsAreEmpty = true ∧
     recordCodeAction c10FixlessProblem "f.ts" [] = []) ∧
    (∀ kv ∈ [((3, 4), exLintProblem)], problemHasNonEmptyFix kv.2) ∧
    getCodeFixesAtPosition exPluginConfig [] (fun _ => 0) "f.ts" 0 0 initialState =
      [] ∧
    getCodeFixesAtPosition exPluginConfig [] (fun _ => 0) "f.ts" 0 0 c3State =
      [] ++ [fixAllAutoFixableFix [((3, 4), exLintProblem)] "f.ts"] :=
  ⟨⟨by decide,
    C10_registry_and_unrecorded_span_amended.1 c10FixlessProblem "f.ts" [] (by decide)⟩,
   C10_registry_and_unrecorded_span_amended.2.1 exApi normId globNone c10Lint
     exPluginConfig [] "f.ts" initialState [((3, 4), exLintProblem)]
     (by decide) (by decide),
   C10_registry_and_unrecorded_span_amended.2.2.1 exPluginConfig [] (fun _ => 0)
     "f.ts" 0 0 initialState (by decide),
   C10_registry_and_unrecorded_span_amended.2.2.2 exPluginConfig [] (fun _ => 0)
     "f.ts" 0 0 c3State [((3, 4), exLintProblem)] (by decide) (by decide) (by decide)⟩

end Tslint
